import Mathlib

/-!
# Chainlink node client: session establishment and request dispatch

A shallow embedding of `client/client.go` (package `client`).

Modelling conventions.

* Go `string` and `[]byte` values are Lean `String`s; `string(b)` is the identity and a
  nil byte slice is the empty string.
* A Go `error` is `Option GoError`; `none` is the nil error.
* A Go pointer that may be nil is an `Option`.
* `fmt.Sprintf` with the verbs `%s`, `%d`, `%v` is string concatenation of the rendered
  arguments (`%d` of an `int` is its decimal rendering, `%v` of an error is `err.Error()`).
* Library behaviour that the file does not define (`http.NewRequest` validation, the
  transport round trip, `http.Post`, `json.Marshal`/`json.Unmarshal` of a concrete shape)
  is taken as a parameter, bundled in `Env` or passed as a codec.
-/

namespace Http

/-- An `http.Cookie`, reduced to the two fields a request header carries. -/
structure Cookie where
  Name : String
  Value : String
deriving DecidableEq, Repr

/-- The body stream of a response together with what `ioutil.ReadAll` yields on it:
the bytes read, and the read error if the stream failed. -/
structure Body where
  data : String
  readErr : Option String
deriving DecidableEq, Repr

/-- An `http.Response`: status code, body stream, and the cookies parsed from its
`Set-Cookie` headers (the value of `resp.Cookies()`). -/
structure Response where
  StatusCode : Int
  Body : Body
  Cookies : List Cookie
deriving DecidableEq, Repr

/-- An `http.Request` as built by `http.NewRequest` and extended by `AddCookie`. -/
structure Request where
  Method : String
  URL : String
  Body : String
  Cookies : List Cookie
deriving DecidableEq, Repr

/-- The method `(*Request).AddCookie`: the cookie is appended to those already present. -/
def Request.AddCookie (req : Request) (cookie : Cookie) : Request :=
  { req with Cookies := req.Cookies ++ [cookie] }

end Http

namespace Client

/-- Go error values occurring in the package: the package-level sentinel `ErrNotFound`,
an error freshly built by `fmt.Errorf`, and an error handed back by a library call. -/
inductive GoError where
  | ErrNotFound
  | Errorf (msg : String)
  | lib (msg : String)
deriving DecidableEq, Repr

/-- The method `Error()` of an error value. -/
def GoError.Error : GoError → String
  | .ErrNotFound => "unexpected response code, got 404"
  | .Errorf msg => msg
  | .lib msg => msg

/-- Outcome of `client.Do(req)`: a response with nil error, or a non-nil error together
with whatever response pointer the transport returned with it. -/
inductive RoundTrip where
  | ok (resp : Http.Response)
  | fail (resp : Option Http.Response) (err : GoError)
deriving DecidableEq, Repr

/-- The error value returned by `client.Do`. -/
def RoundTrip.err : RoundTrip → Option GoError
  | .ok _ => none
  | .fail _ err => some err

/-- The response pointer returned by `client.Do`. -/
def RoundTrip.resp : RoundTrip → Option Http.Response
  | .ok resp => some resp
  | .fail resp _ => resp

/-- The type `Config`. -/
structure Config where
  URL : String
  Email : String
  Password : String
deriving DecidableEq, Repr

/-- The type `Session`, the login payload. -/
structure Session where
  Email : String
  Password : String
deriving DecidableEq, Repr

/-- The type `Chainlink`: the configuration and the stored cookies. -/
structure Chainlink where
  Config : Config
  Cookies : List Http.Cookie
deriving DecidableEq, Repr

/-- The library and the remote node, as seen by the client. -/
structure Env where
  /-- Validation done by `http.NewRequest` on method and URL. -/
  newRequestErr : String → String → Option GoError
  /-- The call `client.Do`. -/
  clientDo : Http.Request → RoundTrip
  /-- The call `http.Post url contentType body`. -/
  post : String → String → String → Except GoError Http.Response
  /-- The call `json.Marshal` on a `Session`. -/
  marshalSession : Session → Except GoError String

/-- The call `ioutil.ReadAll(resp.Body)`: the bytes read and the error. -/
def ReadAll (body : Http.Body) : String × Option GoError :=
  (body.data, body.readErr.map GoError.lib)

/-- A decoder `json.Unmarshal(b, &obj)` for destinations of shape `δ`: from the buffered
body and the destination before the call to the destination after the call and the
error. -/
abbrev Unmarshal (δ : Type) := String → δ → δ × Option GoError

/-- What a call of `doRaw` leaves behind: the two returned values, the destination after
the call (`none` when no destination was passed), and whether the response body stream
was consumed by `ioutil.ReadAll`. -/
structure DoResult (δ : Type) where
  resp : Option Http.Response
  err : Option GoError
  obj : Option δ
  bodyRead : Bool
deriving DecidableEq, Repr

/-- Message of the error built when `ioutil.ReadAll` fails (lines 142 and 188). -/
def readErrorMsg (err : GoError) (url b : String) : String :=
  "error while reading response: " ++ err.Error ++ "\nURL: " ++ url ++
    "\nresponse received: " ++ b

/-- Message of the error built when the status is not the expected one (line 148). -/
def unexpectedStatusMsg (status : Int) (url b : String) : String :=
  "unexpected response code, got " ++ toString status ++ ", expected 200\nURL: " ++ url ++
    "\nresponse received: " ++ b

/-- Message of the error built when `json.Unmarshal` fails (line 153). -/
def unmarshalErrorMsg (err : GoError) (url b : String) : String :=
  "error while unmarshaling response: " ++ err.Error ++ "\nURL: " ++ url ++
    "\nresponse received: " ++ b

/-- Lines 120-131 of `doRaw`: the request is built for the URL `c.Config.URL` followed by
`endpoint`, and every stored cookie is added to it. -/
def doRawRequest (env : Env) (c : Chainlink) (method endpoint body : String) :
    Except GoError Http.Request :=
  match env.newRequestErr method (c.Config.URL ++ endpoint) with
  | some err => .error err
  | none =>
    .ok (c.Cookies.foldl Http.Request.AddCookie ⟨method, c.Config.URL ++ endpoint, body, []⟩)

/-- The method `Chainlink.doRaw`. -/
def doRaw {δ : Type} (env : Env) (dec : Unmarshal δ) (c : Chainlink)
    (method endpoint body : String) (obj : Option δ) (expectedStatusCode : Int) :
    DoResult δ :=
  match doRawRequest env c method endpoint body with
  | .error err => ⟨none, some err, obj, false⟩
  | .ok req =>
    match env.clientDo req with
    | .fail resp err => ⟨resp, some err, obj, false⟩
    | .ok resp =>
      match obj with
      | none => ⟨some resp, none, none, false⟩
      | some d =>
        match ReadAll resp.Body with
        | (b, some err) =>
          ⟨none, some (.Errorf (readErrorMsg err c.Config.URL b)), some d, true⟩
        | (b, none) =>
          if resp.StatusCode = 404 then
            ⟨some resp, some .ErrNotFound, some d, true⟩
          else if resp.StatusCode ≠ expectedStatusCode then
            ⟨some resp, some (.Errorf (unexpectedStatusMsg resp.StatusCode c.Config.URL b)),
              some d, true⟩
          else
            match dec b d with
            | (d', some err) =>
              ⟨none, some (.Errorf (unmarshalErrorMsg err c.Config.URL b)), some d', true⟩
            | (d', none) => ⟨some resp, none, some d', true⟩

/-- The call `json.Marshal(body)` on an `interface{}` payload: the nil payload is rendered
as the JSON text `null` (documented behaviour of `encoding/json`), any other payload by the
encoder of its shape. -/
def jsonMarshal {π : Type} (enc : π → Except GoError String) :
    Option π → Except GoError String
  | none => .ok "null"
  | some p => enc p

/-- The method `Chainlink.do`. The pair `(b, err)` is what `json.Marshal` returned; on a
marshalling error `b` is the nil slice. -/
def do_ {π δ : Type} (env : Env) (enc : π → Except GoError String) (dec : Unmarshal δ)
    (c : Chainlink) (method endpoint : String) (body : Option π) (obj : Option δ)
    (expectedStatusCode : Int) : DoResult δ :=
  let (b, err) : String × Option GoError :=
    match jsonMarshal enc body with
    | .ok b => (b, none)
    | .error e => ("", some e)
  if body.isSome ∧ err.isSome then ⟨none, err, obj, false⟩
  else doRaw env dec c method endpoint b obj expectedStatusCode

/-- Encoder for call sites that pass the literal `nil` as payload. -/
def noPayload : Empty → Except GoError String := fun e => e.elim

/-- Decoder for call sites that pass the literal `nil` as destination. -/
def noDestination : Unmarshal Empty := fun _ d => d.elim

/-- The method `Chainlink.DeleteSpec`. -/
def DeleteSpec (env : Env) (c : Chainlink) (id : String) : Option GoError :=
  (do_ env noPayload noDestination c "DELETE" ("/v2/specs/" ++ id) none none 204).err

/-- The method `Chainlink.DeleteBridge`. -/
def DeleteBridge (env : Env) (c : Chainlink) (name : String) : Option GoError :=
  (do_ env noPayload noDestination c "DELETE" ("/v2/bridge_types/" ++ name) none none 200).err

/-- The method `Chainlink.CreateOCRKey`, for a key record of shape `κ` whose zero value is
`zero`: the returned pointer is the one created on entry, so the first component is the
record after the call. -/
def CreateOCRKey {κ : Type} (env : Env) (dec : Unmarshal κ) (zero : κ) (c : Chainlink) :
    κ × Option GoError :=
  let r := do_ env noPayload dec c "POST" "/v2/off_chain_reporting_keys" none (some zero) 200
  (r.obj.getD zero, r.err)

/-- A Go `interface{}` holding a value of `V`; `none` is the nil interface. -/
abbrev Iface (V : Type) := Option V

/-- A Go `map[string]interface{}`, as an association list. -/
abbrev FieldMap (V : Type) := List (String × Iface V)

/-- Indexing `m[key]` of a `map[string]interface{}`: the nil interface for a missing key. -/
def FieldMap.index {V : Type} (m : FieldMap V) (key : String) : Iface V :=
  (m.lookup key).getD none

/-- Modelled from the spec: the declaration of the type `ResponseArray` is not in the
file; it is the array envelope wrapping a sequence of free-form mappings of field name to
value, held in its field `Data`. -/
structure ResponseArray (V : Type) where
  Data : List (FieldMap V)

/-- The call `fmt.Sprint` on an `interface{}`: `<nil>` for the nil interface, the rendering
`render` of the dynamic value otherwise. -/
def Sprint {V : Type} (render : V → String) : Iface V → String
  | none => "<nil>"
  | some v => render v

/-- The error of line 75. -/
def errNoWallets : GoError :=
  .Errorf "unexpected response back from Chainlink, no wallets were given"

/-- The method `Chainlink.ReadWallet`. The destination handed to `do` is the address of
the pointer variable `walletObj`, so its state is an optional envelope; the result is
`none` when the method stops on a nil pointer dereference. -/
def ReadWallet {V : Type} (env : Env) (dec : Unmarshal (Option (ResponseArray V)))
    (render : V → String) (c : Chainlink) : Option (String × Option GoError) :=
  let r := do_ env noPayload dec c "GET" "/v2/user/balances" none (some (some ⟨[]⟩)) 200
  match r.err with
  | some err => some ("", some err)
  | none =>
    match r.obj with
    | some (some walletObj) =>
      if h : walletObj.Data.length = 0 then
        some ("", some errNoWallets)
      else
        some (Sprint render ((walletObj.Data.get ⟨0, by omega⟩).index "id"), none)
    | _ => none

/-- Message of the error built when the login status is not 200 (line 191). -/
def sessionStatusMsg (status : Int) (url b : String) : String :=
  "status code of " ++ toString status ++
    " was returned when trying to get a session\nURL: " ++ url ++
    "\nresponse received: " ++ b

/-- The error of line 194. -/
def errNoCookie : GoError :=
  .Errorf "no cookie was returned after getting a session"

/-- The error of line 205. -/
def errSessionCookieMissing : GoError :=
  .Errorf "chainlink: session cookie wasn't returned on login"

/-- The loop of lines 198-203: the flag `sessionFound` after ranging over the cookies. -/
def sessionFound (cookies : List Http.Cookie) : Bool :=
  cookies.foldl (fun found cookie => if cookie.Name = "clsession" then true else found) false

/-- The method `Chainlink.setSessionCookie`: the client after the call and the returned
error. -/
def setSessionCookie (env : Env) (c : Chainlink) : Chainlink × Option GoError :=
  let session : Session := ⟨c.Config.Email, c.Config.Password⟩
  match env.marshalSession session with
  | .error err => (c, some err)
  | .ok b =>
    match env.post (c.Config.URL ++ "/sessions") "application/json" b with
    | .error err => (c, some err)
    | .ok resp =>
      match ReadAll resp.Body with
      | (b, some err) => (c, some (.Errorf (readErrorMsg err c.Config.URL b)))
      | (b, none) =>
        if resp.StatusCode ≠ 200 then
          (c, some (.Errorf (sessionStatusMsg resp.StatusCode c.Config.URL b)))
        else if resp.Cookies.length = 0 then
          (c, some errNoCookie)
        else
          let c : Chainlink := { c with Cookies := resp.Cookies }
          if !sessionFound resp.Cookies then (c, some errSessionCookieMissing)
          else (c, none)

/-- The function `NewChainlink`: the returned client pointer and the returned error. -/
def NewChainlink (env : Env) (c : Config) : Option Chainlink × Option GoError :=
  let cl : Chainlink := ⟨c, []⟩
  let r := setSessionCookie env cl
  (some r.1, r.2)

/-- A message carries a text when the text occurs in it as a contiguous run of
characters. -/
def Carries (msg part : String) : Prop := part.data <:+: msg.data

/-! ## Concrete data used to run the definitions -/

/-- A node at `http://node:6688` with one stored session cookie. -/
def sampleClient : Chainlink :=
  ⟨⟨"http://node:6688", "admin@example.org", "secret"⟩, [⟨"clsession", "abc"⟩]⟩

/-- A response with the given status, a readable body and no cookies. -/
def plainResponse (status : Int) (body : String) : Http.Response :=
  ⟨status, ⟨body, none⟩, []⟩

/-- An environment whose transport answers every request with `resp`. -/
def constEnv (resp : Http.Response) : Env where
  newRequestErr := fun _ _ => none
  clientDo := fun _ => .ok resp
  post := fun _ _ _ => .ok resp
  marshalSession := fun s => .ok ("<" ++ s.Email ++ ">")

/-- A decoder for string destinations: the body is stored as is, the empty body is
rejected. -/
def rawDecoder : Unmarshal String := fun b d =>
  if b = "" then (d, some (.lib "unexpected end of JSON input")) else (b, none)

/-- A login response with status 200 and the given cookies. -/
def loginResponse (cookies : List Http.Cookie) : Http.Response :=
  ⟨200, ⟨"ok", none⟩, cookies⟩

/-- A decoder of balance envelopes that yields the given wallets for every body. -/
def walletDecoder (wallets : List (FieldMap String)) :
    Unmarshal (Option (ResponseArray String)) :=
  fun _ _ => (some ⟨wallets⟩, none)

/-! ## Theorems -/

/-! ### Auxiliary facts -/

theorem foldl_AddCookie (cs : List Http.Cookie) (r : Http.Request) :
    cs.foldl Http.Request.AddCookie r = { r with Cookies := r.Cookies ++ cs } := by
  induction cs generalizing r with
  | nil => simp
  | cons k ks ih => simp [List.foldl, ih, Http.Request.AddCookie]

theorem doRawRequest_ok {env : Env} {c : Chainlink} {method endpoint body : String}
    {req : Http.Request} (h : doRawRequest env c method endpoint body = .ok req) :
    req = ⟨method, c.Config.URL ++ endpoint, body, c.Cookies⟩ := by
  unfold doRawRequest at h
  split at h
  · cases h
  · simp only [foldl_AddCookie, List.nil_append, Except.ok.injEq] at h
    exact h.symm

theorem sessionFound_fold (cs : List Http.Cookie) (acc : Bool) :
    cs.foldl (fun found cookie => if cookie.Name = "clsession" then true else found) acc
      = (acc || cs.any (fun k => decide (k.Name = "clsession"))) := by
  induction cs generalizing acc with
  | nil => simp
  | cons k ks ih =>
    simp only [List.foldl, ih, List.any_cons]
    by_cases hk : k.Name = "clsession" <;> simp [hk]

theorem sessionFound_iff (cs : List Http.Cookie) :
    sessionFound cs = true ↔ ∃ k ∈ cs, k.Name = "clsession" := by
  rw [sessionFound, sessionFound_fold]
  simp

theorem setSessionCookie_login {env : Env} {c : Chainlink} {b : String}
    {resp : Http.Response}
    (hm : env.marshalSession ⟨c.Config.Email, c.Config.Password⟩ = .ok b)
    (hp : env.post (c.Config.URL ++ "/sessions") "application/json" b = .ok resp)
    (hread : resp.Body.readErr = none) (hstatus : resp.StatusCode = 200) :
    setSessionCookie env c =
      if resp.Cookies.length = 0 then (c, some errNoCookie)
      else if sessionFound resp.Cookies then (⟨c.Config, resp.Cookies⟩, none)
      else (⟨c.Config, resp.Cookies⟩, some errSessionCookieMissing) := by
  simp only [setSessionCookie, hm, hp, ReadAll, hread, hstatus]
  by_cases h0 : resp.Cookies.length = 0
  · simp [h0]
  · by_cases hf : sessionFound resp.Cookies = true <;> simp [h0, hf]

theorem setSessionCookie_outcome (env : Env) (c : Chainlink) :
    (setSessionCookie env c).1 = c ∨ (setSessionCookie env c).2 = none ∨
      (setSessionCookie env c).2 = some errSessionCookieMissing := by
  simp only [setSessionCookie]
  repeat' split
  all_goals simp

theorem setSessionCookie_Config (env : Env) (c : Chainlink) :
    (setSessionCookie env c).1.Config = c.Config := by
  simp only [setSessionCookie]
  repeat' split
  all_goals rfl

theorem carries_append_right (a b : String) : Carries (a ++ b) b :=
  ⟨a.data, [], by simp [String.data_append]⟩

theorem carries_append_left {a b : String} (c : String) (h : Carries a b) :
    Carries (a ++ c) b := by
  obtain ⟨s, t, hst⟩ := h
  exact ⟨s, t ++ c.data, by simp [String.data_append, ← hst]⟩

theorem unmarshalErrorMsg_ne_unexpectedStatusMsg (cause : GoError) (url b : String)
    (status : Int) (url' b' : String) :
    unmarshalErrorMsg cause url b ≠ unexpectedStatusMsg status url' b' := by
  intro h
  have hdata := congrArg String.data h
  simp [unmarshalErrorMsg, unexpectedStatusMsg, String.data_append] at hdata

theorem setSessionCookie_success (env : Env) (c : Chainlink)
    (hok : (setSessionCookie env c).2 = none) :
    ∃ b resp, env.marshalSession ⟨c.Config.Email, c.Config.Password⟩ = .ok b ∧
      env.post (c.Config.URL ++ "/sessions") "application/json" b = .ok resp ∧
      resp.Body.readErr = none ∧ resp.StatusCode = 200 ∧ resp.Cookies ≠ [] ∧
      (∃ k ∈ resp.Cookies, k.Name = "clsession") ∧
      setSessionCookie env c = (⟨c.Config, resp.Cookies⟩, none) := by
  cases hm : env.marshalSession ⟨c.Config.Email, c.Config.Password⟩ with
  | error e => simp [setSessionCookie, hm] at hok
  | ok b =>
    cases hp : env.post (c.Config.URL ++ "/sessions") "application/json" b with
    | error e => simp [setSessionCookie, hm, hp] at hok
    | ok resp =>
      cases hr : resp.Body.readErr with
      | some e => simp [setSessionCookie, hm, hp, ReadAll, hr] at hok
      | none =>
        by_cases hs : resp.StatusCode = 200
        · have hlogin := setSessionCookie_login hm hp hr hs
          rw [hlogin] at hok ⊢
          by_cases h0 : resp.Cookies.length = 0
          · simp [h0] at hok
          · by_cases hf : sessionFound resp.Cookies = true
            · have hne : resp.Cookies ≠ [] := fun h => h0 (by simp [h])
              refine ⟨b, resp, rfl, hp, hr, hs, hne, (sessionFound_iff _).1 hf, ?_⟩
              rw [if_neg h0, if_pos hf]
            · simp [h0, hf] at hok
        · simp [setSessionCookie, hm, hp, ReadAll, hr, hs] at hok

theorem setSessionCookie_of_login (env : Env) (c : Chainlink) {b : String}
    {resp : Http.Response}
    (hm : env.marshalSession ⟨c.Config.Email, c.Config.Password⟩ = .ok b)
    (hp : env.post (c.Config.URL ++ "/sessions") "application/json" b = .ok resp)
    (hread : resp.Body.readErr = none) (hstatus : resp.StatusCode = 200)
    (hfound : ∃ k ∈ resp.Cookies, k.Name = "clsession") :
    setSessionCookie env c = (⟨c.Config, resp.Cookies⟩, none) := by
  rw [setSessionCookie_login hm hp hread hstatus]
  have hf := (sessionFound_iff _).2 hfound
  obtain ⟨k, hk, _⟩ := hfound
  have h0 : resp.Cookies.length ≠ 0 := by
    intro h
    rw [List.length_eq_zero.1 h] at hk
    cases hk
  rw [if_neg h0, if_pos hf]

/-! ### The claims -/

/-- C1: a call of `doRaw` with a destination, whose round trip and body read succeed and
whose response status is 404, returns exactly `ErrNotFound`, whatever the expected status
code is (404 included), and the destination is left as it was (nothing is decoded). -/
theorem doRaw_404_is_ErrNotFound {δ : Type} (env : Env) (dec : Unmarshal δ) (c : Chainlink)
    (method endpoint body : String) (d : δ) (expectedStatusCode : Int)
    (req : Http.Request) (resp : Http.Response)
    (hreq : doRawRequest env c method endpoint body = .ok req)
    (hdo : env.clientDo req = .ok resp)
    (hread : resp.Body.readErr = none)
    (hstatus : resp.StatusCode = 404) :
    (doRaw env dec c method endpoint body (some d) expectedStatusCode).err
        = some GoError.ErrNotFound ∧
      (doRaw env dec c method endpoint body (some d) expectedStatusCode).obj = some d := by
  simp [doRaw, hreq, hdo, ReadAll, hread, hstatus]

/-- Witness for C1: expected status 404, response status 404. -/
theorem doRaw_404_is_ErrNotFound_witness :
    (doRaw (constEnv (plainResponse 404 "gone")) rawDecoder sampleClient "GET" "/v2/specs/1"
        "null" (some "") 404).err = some GoError.ErrNotFound ∧
      (doRaw (constEnv (plainResponse 404 "gone")) rawDecoder sampleClient "GET" "/v2/specs/1"
        "null" (some "") 404).obj = some "" :=
  doRaw_404_is_ErrNotFound (constEnv (plainResponse 404 "gone")) rawDecoder sampleClient
    "GET" "/v2/specs/1" "null" "" 404
    ⟨"GET", "http://node:6688/v2/specs/1", "null", [⟨"clsession", "abc"⟩]⟩
    (plainResponse 404 "gone") rfl rfl rfl rfl

/-- C2 (counterexample): the node answers the bridge deletion with status 404 and
`DeleteBridge` returns the nil error, not `ErrNotFound`. -/
theorem DeleteBridge_404_not_ErrNotFound :
    (constEnv (plainResponse 404 "bridge not found")).clientDo
        ⟨"DELETE", "http://node:6688/v2/bridge_types/b1", "null", [⟨"clsession", "abc"⟩]⟩
        = .ok (plainResponse 404 "bridge not found") ∧
      (plainResponse 404 "bridge not found").StatusCode = 404 ∧
      DeleteBridge (constEnv (plainResponse 404 "bridge not found")) sampleClient "b1"
        ≠ some GoError.ErrNotFound ∧
      DeleteBridge (constEnv (plainResponse 404 "bridge not found")) sampleClient "b1"
        = none := by
  decide

/-- C2 (amended): `DeleteBridge` passes no destination, so whenever the round trip of the
request `DELETE {URL}/v2/bridge_types/{name}` succeeds, with status 404 or any other
status, `DeleteBridge` returns the nil error: neither `ErrNotFound` nor an unexpected-status
error. -/
theorem DeleteBridge_returns_transport_error_only (env : Env) (c : Chainlink) (name : String)
    (req : Http.Request) (resp : Http.Response)
    (hreq : doRawRequest env c "DELETE" ("/v2/bridge_types/" ++ name) "null" = .ok req)
    (hdo : env.clientDo req = .ok resp) :
    req = ⟨"DELETE", c.Config.URL ++ ("/v2/bridge_types/" ++ name), "null", c.Cookies⟩ ∧
      DeleteBridge env c name = none := by
  refine ⟨doRawRequest_ok hreq, ?_⟩
  simp [DeleteBridge, do_, jsonMarshal, doRaw, hreq, hdo]

/-- Witness for C2 (amended): status 404 on the deletion of bridge `b1`. -/
theorem DeleteBridge_returns_transport_error_only_witness :
    (⟨"DELETE", "http://node:6688/v2/bridge_types/b1", "null", [⟨"clsession", "abc"⟩]⟩
        : Http.Request)
        = ⟨"DELETE", sampleClient.Config.URL ++ ("/v2/bridge_types/" ++ "b1"), "null",
            sampleClient.Cookies⟩ ∧
      DeleteBridge (constEnv (plainResponse 404 "bridge not found")) sampleClient "b1"
        = none :=
  DeleteBridge_returns_transport_error_only (constEnv (plainResponse 404 "bridge not found"))
    sampleClient "b1"
    ⟨"DELETE", "http://node:6688/v2/bridge_types/b1", "null", [⟨"clsession", "abc"⟩]⟩
    (plainResponse 404 "bridge not found") rfl rfl

/-- C3 (counterexample): the login is answered with status 500; `NewChainlink` returns a
non-nil error and, with it, a non-nil client. -/
theorem NewChainlink_failure_returns_client :
    (NewChainlink (constEnv (plainResponse 500 "oops")) sampleClient.Config).2 ≠ none ∧
      (NewChainlink (constEnv (plainResponse 500 "oops")) sampleClient.Config).1 ≠ none := by
  decide

/-- C3 (amended): `NewChainlink` always returns a non-nil client, the one built on entry,
holding the given config; when the returned error is not nil its cookie list is empty unless
the error is the missing session cookie. The returned error is nil exactly when the login
payload was serialized, the login was answered, the body was read, the status is 200 and
a cookie named `clsession` came back. In particular a login answered with a status other
than 200 makes `NewChainlink` return a non-nil error, which is the status error when the
body was read, together with the client holding the config and no cookie. -/
theorem NewChainlink_failure (env : Env) (c : Config) :
    (∃ cl, (NewChainlink env c).1 = some cl ∧ cl.Config = c ∧
        ((NewChainlink env c).2 ≠ none →
          cl.Cookies = [] ∨ (NewChainlink env c).2 = some errSessionCookieMissing)) ∧
      ((NewChainlink env c).2 = none ↔
        ∃ b resp, env.marshalSession ⟨c.Email, c.Password⟩ = .ok b ∧
          env.post (c.URL ++ "/sessions") "application/json" b = .ok resp ∧
          resp.Body.readErr = none ∧ resp.StatusCode = 200 ∧
          ∃ k ∈ resp.Cookies, k.Name = "clsession") ∧
      ∀ b resp, env.marshalSession ⟨c.Email, c.Password⟩ = .ok b →
        env.post (c.URL ++ "/sessions") "application/json" b = .ok resp →
        resp.StatusCode ≠ 200 →
          (NewChainlink env c).1 = some ⟨c, []⟩ ∧ (NewChainlink env c).2 ≠ none ∧
          (resp.Body.readErr = none →
            (NewChainlink env c).2
              = some (.Errorf (sessionStatusMsg resp.StatusCode c.URL resp.Body.data))) := by
  refine ⟨⟨(setSessionCookie env ⟨c, []⟩).1, rfl, setSessionCookie_Config env ⟨c, []⟩, ?_⟩,
    ⟨?_, ?_⟩, ?_⟩
  · intro hfail
    rcases setSessionCookie_outcome env ⟨c, []⟩ with h | h | h
    · exact Or.inl (by rw [h])
    · exact absurd h hfail
    · exact Or.inr h
  · intro hok
    obtain ⟨b, resp, hm, hp, hr, hs, _, hfound, _⟩ :=
      setSessionCookie_success env ⟨c, []⟩ hok
    exact ⟨b, resp, hm, hp, hr, hs, hfound⟩
  · rintro ⟨b, resp, hm, hp, hr, hs, hfound⟩
    have h := setSessionCookie_of_login env ⟨c, []⟩ hm hp hr hs hfound
    simp [NewChainlink, h]
  · intro b resp hm hp hs
    cases hr : resp.Body.readErr with
    | some e => simp [NewChainlink, setSessionCookie, hm, hp, ReadAll, hr]
    | none => simp [NewChainlink, setSessionCookie, hm, hp, ReadAll, hr, hs]

/-- Witness for C3 (amended): a login answered with status 500 and body `oops`. -/
theorem NewChainlink_failure_witness :
    (NewChainlink (constEnv (plainResponse 500 "oops")) sampleClient.Config).1
        = some ⟨sampleClient.Config, []⟩ ∧
      (NewChainlink (constEnv (plainResponse 500 "oops")) sampleClient.Config).2 ≠ none ∧
      (NewChainlink (constEnv (plainResponse 500 "oops")) sampleClient.Config).2
        = some (.Errorf (sessionStatusMsg 500 "http://node:6688" "oops")) :=
  have h := (NewChainlink_failure (constEnv (plainResponse 500 "oops"))
    sampleClient.Config).2.2 "<admin@example.org>" (plainResponse 500 "oops") rfl rfl
    (by decide)
  ⟨h.1, h.2.1, h.2.2 rfl⟩

/-- C4: whenever `setSessionCookie` returns the nil error, the login was answered by a
response `resp` and the client stores exactly `resp.Cookies()`, the whole list in its
order; that list is not empty and holds a cookie named `clsession`; `NewChainlink` on the
same config returns that client with the nil error. On that client every call of `doRaw`
whose request can be built hands to `client.Do` one request `req` carrying exactly these
cookies, at least one: the result of `doRaw` depends on the transport through its answer to
`req` alone, and without destination `doRaw` returns that very answer. -/
theorem setSessionCookie_success_stores_cookies (env : Env) (c : Chainlink)
    (hok : (setSessionCookie env c).2 = none) :
    ∃ b resp, env.marshalSession ⟨c.Config.Email, c.Config.Password⟩ = .ok b ∧
      env.post (c.Config.URL ++ "/sessions") "application/json" b = .ok resp ∧
      (setSessionCookie env c).1.Cookies = resp.Cookies ∧
      (setSessionCookie env c).1.Cookies ≠ [] ∧
      (∃ k ∈ (setSessionCookie env c).1.Cookies, k.Name = "clsession") ∧
      NewChainlink env c.Config = (some (setSessionCookie env c).1, none) ∧
      ∀ (δ : Type) (dec : Unmarshal δ) (method endpoint body : String) (obj : Option δ)
        (expectedStatusCode : Int),
        env.newRequestErr method (c.Config.URL ++ endpoint) = none →
        ∃ req, req.Method = method ∧ req.URL = c.Config.URL ++ endpoint ∧
          req.Body = body ∧ req.Cookies = resp.Cookies ∧ req.Cookies ≠ [] ∧
          (∀ env2 : Env, env2.newRequestErr = env.newRequestErr →
            env2.clientDo req = env.clientDo req →
            doRaw env2 dec (setSessionCookie env c).1 method endpoint body obj
                expectedStatusCode
              = doRaw env dec (setSessionCookie env c).1 method endpoint body obj
                expectedStatusCode) ∧
          (doRaw env dec (setSessionCookie env c).1 method endpoint body none
              expectedStatusCode).resp = (env.clientDo req).resp ∧
          (doRaw env dec (setSessionCookie env c).1 method endpoint body none
              expectedStatusCode).err = (env.clientDo req).err := by
  obtain ⟨b, resp, hm, hp, hr, hs, hne, hfound, hres⟩ := setSessionCookie_success env c hok
  have hnewc : setSessionCookie env ⟨c.Config, []⟩ = (⟨c.Config, resp.Cookies⟩, none) :=
    setSessionCookie_of_login env ⟨c.Config, []⟩ hm hp hr hs hfound
  refine ⟨b, resp, hm, hp, ?_⟩
  rw [hres]
  refine ⟨rfl, hne, hfound, by simp [NewChainlink, hnewc], ?_⟩
  intro δ dec method endpoint body obj expectedStatusCode hnew
  have hreq : doRawRequest env ⟨c.Config, resp.Cookies⟩ method endpoint body
      = .ok ⟨method, c.Config.URL ++ endpoint, body, resp.Cookies⟩ := by
    simp [doRawRequest, hnew, foldl_AddCookie]
  refine ⟨⟨method, c.Config.URL ++ endpoint, body, resp.Cookies⟩, rfl, rfl, rfl, rfl, hne,
    ?_, ?_⟩
  · intro env2 h2 hdo
    have hreq2 : doRawRequest env2 ⟨c.Config, resp.Cookies⟩ method endpoint body
        = .ok ⟨method, c.Config.URL ++ endpoint, body, resp.Cookies⟩ := by
      simp [doRawRequest, h2, hnew, foldl_AddCookie]
    simp only [doRaw, hreq, hreq2, hdo]
  · simp only [doRaw, hreq]
    cases h : env.clientDo ⟨method, c.Config.URL ++ endpoint, body, resp.Cookies⟩ <;>
      simp [RoundTrip.resp, RoundTrip.err]

/-- Witness for C4: a login answered with a tracking cookie followed by the session
cookie; the deletion of a spec on the resulting client returns the answer of the transport
to a request carrying both cookies. -/
theorem setSessionCookie_success_stores_cookies_witness :
    (setSessionCookie (constEnv (loginResponse [⟨"lang", "en"⟩, ⟨"clsession", "s3"⟩]))
        ⟨sampleClient.Config, []⟩).2 = none ∧
      ∃ b resp,
        (constEnv (loginResponse [⟨"lang", "en"⟩, ⟨"clsession", "s3"⟩])).marshalSession
            ⟨"admin@example.org", "secret"⟩ = .ok b ∧
        (constEnv (loginResponse [⟨"lang", "en"⟩, ⟨"clsession", "s3"⟩])).post
            ("http://node:6688" ++ "/sessions") "application/json" b = .ok resp ∧
        (setSessionCookie (constEnv (loginResponse [⟨"lang", "en"⟩, ⟨"clsession", "s3"⟩]))
            ⟨sampleClient.Config, []⟩).1.Cookies = resp.Cookies ∧
        (setSessionCookie (constEnv (loginResponse [⟨"lang", "en"⟩, ⟨"clsession", "s3"⟩]))
            ⟨sampleClient.Config, []⟩).1.Cookies ≠ [] :=
  have h := setSessionCookie_success_stores_cookies
    (constEnv (loginResponse [⟨"lang", "en"⟩, ⟨"clsession", "s3"⟩]))
    ⟨sampleClient.Config, []⟩ (by decide)
  ⟨by decide, h.elim fun b hb => hb.elim fun resp hr =>
    ⟨b, resp, hr.1, hr.2.1, hr.2.2.1, hr.2.2.2.1⟩⟩

/-- C5: for a login answered with status 200 whose body was read, `setSessionCookie`
returns the no-cookie error exactly when the response has no cookie, the distinct
missing-session-cookie error exactly when it has cookies none of which is named
`clsession`, and the nil error in the remaining case, a cookie named `clsession`. -/
theorem setSessionCookie_status200_errors (env : Env) (c : Chainlink) (b : String)
    (resp : Http.Response)
    (hm : env.marshalSession ⟨c.Config.Email, c.Config.Password⟩ = .ok b)
    (hp : env.post (c.Config.URL ++ "/sessions") "application/json" b = .ok resp)
    (hread : resp.Body.readErr = none) (hstatus : resp.StatusCode = 200) :
    ((setSessionCookie env c).2 = some errNoCookie ↔ resp.Cookies = []) ∧
      ((setSessionCookie env c).2 = some errSessionCookieMissing ↔
        resp.Cookies ≠ [] ∧ ∀ k ∈ resp.Cookies, k.Name ≠ "clsession") ∧
      ((setSessionCookie env c).2 = none ↔ ∃ k ∈ resp.Cookies, k.Name = "clsession") ∧
      errNoCookie ≠ errSessionCookieMissing := by
  rw [setSessionCookie_login hm hp hread hstatus]
  have hdist : errNoCookie ≠ errSessionCookieMissing := by decide
  by_cases h0 : resp.Cookies = []
  · simp [h0, hdist]
  · have hlen : resp.Cookies.length ≠ 0 := fun h => h0 (List.length_eq_zero.1 h)
    by_cases hf : sessionFound resp.Cookies = true
    · have hex := (sessionFound_iff _).1 hf
      rw [if_neg hlen, if_pos hf]
      obtain ⟨k, hk, hname⟩ := hex
      exact ⟨⟨fun h => (by cases h), fun h => absurd h h0⟩,
        ⟨fun h => (by cases h), fun h => absurd hname (h.2 k hk)⟩,
        ⟨fun _ => ⟨k, hk, hname⟩, fun _ => rfl⟩, hdist⟩
    · have hnex : ¬ ∃ k ∈ resp.Cookies, k.Name = "clsession" :=
        fun h => hf ((sessionFound_iff _).2 h)
      rw [if_neg hlen, if_neg hf]
      exact ⟨⟨fun h => absurd (Option.some.inj h).symm hdist, fun h => absurd h h0⟩,
        ⟨fun _ => ⟨h0, fun k hk hname => hnex ⟨k, hk, hname⟩⟩, fun _ => rfl⟩,
        ⟨fun h => (by cases h), fun h => absurd h hnex⟩, hdist⟩

/-- Witness for C5: status 200 and a single cookie that is not the session cookie. -/
theorem setSessionCookie_status200_errors_witness :
    (setSessionCookie (constEnv (loginResponse [⟨"lang", "en"⟩])) sampleClient).2
        = some errSessionCookieMissing ↔
      (loginResponse [⟨"lang", "en"⟩]).Cookies ≠ [] ∧
        ∀ k ∈ (loginResponse [⟨"lang", "en"⟩]).Cookies, k.Name ≠ "clsession" :=
  (setSessionCookie_status200_errors (constEnv (loginResponse [⟨"lang", "en"⟩])) sampleClient
    "<admin@example.org>" (loginResponse [⟨"lang", "en"⟩]) rfl rfl rfl rfl).2.1

/-- C6: a call of `doRaw` without destination never reads the response body, and its error
is the error of request construction or else exactly the error of `client.Do` (nil when the
round trip succeeded). Hence two nodes whose transports fail on the same requests with the
same errors yield the same error, whatever the status codes and bodies of their responses,
the decoders and the expected status codes. -/
theorem doRaw_nil_destination (env env' : Env) {δ : Type} (dec dec' : Unmarshal δ)
    (c : Chainlink) (method endpoint body : String)
    (expectedStatusCode expectedStatusCode' : Int)
    (hnew : env'.newRequestErr = env.newRequestErr)
    (hdo : ∀ req, (env'.clientDo req).err = (env.clientDo req).err) :
    (doRaw env dec c method endpoint body none expectedStatusCode).err
        = (match doRawRequest env c method endpoint body with
          | .error err => some err
          | .ok req => (env.clientDo req).err) ∧
      (doRaw env dec c method endpoint body none expectedStatusCode).resp
        = (match doRawRequest env c method endpoint body with
          | .error _ => none
          | .ok req => (env.clientDo req).resp) ∧
      (doRaw env dec c method endpoint body none expectedStatusCode).bodyRead = false ∧
      (doRaw env dec c method endpoint body none expectedStatusCode).obj = none ∧
      (doRaw env' dec' c method endpoint body none expectedStatusCode').err
        = (doRaw env dec c method endpoint body none expectedStatusCode).err := by
  have key : ∀ (e : Env) (dc : Unmarshal δ) (x : Int),
      (doRaw e dc c method endpoint body none x).err
        = (match doRawRequest e c method endpoint body with
          | .error err => some err
          | .ok req => (e.clientDo req).err) := by
    intro e dc x
    unfold doRaw
    cases doRawRequest e c method endpoint body with
    | error err => rfl
    | ok req => cases h : e.clientDo req <;> simp [h, RoundTrip.err]
  have hreq : doRawRequest env' c method endpoint body
      = doRawRequest env c method endpoint body := by
    simp [doRawRequest, hnew]
  refine ⟨key env dec _, ?_, ?_, ?_, ?_⟩
  · unfold doRaw
    cases doRawRequest env c method endpoint body with
    | error err => rfl
    | ok req => cases h : env.clientDo req <;> simp [h, RoundTrip.resp]
  · unfold doRaw
    cases doRawRequest env c method endpoint body with
    | error err => rfl
    | ok req => cases h : env.clientDo req <;> simp [h]
  · unfold doRaw
    cases doRawRequest env c method endpoint body with
    | error err => rfl
    | ok req => cases h : env.clientDo req <;> simp [h]
  · rw [key env' dec', key env dec, hreq]
    cases doRawRequest env c method endpoint body with
    | error err => rfl
    | ok req => exact hdo req

/-- Witness for C6: a node answering 500 with a body whose stream fails, and a node
answering 204; the deletion of a spec returns the nil error on both. -/
theorem doRaw_nil_destination_witness :
    (doRaw (constEnv ⟨500, ⟨"boom", some "connection reset"⟩, []⟩) noDestination sampleClient
        "DELETE" "/v2/specs/7" "null" none 204).err = none ∧
      (doRaw (constEnv ⟨500, ⟨"boom", some "connection reset"⟩, []⟩) noDestination
        sampleClient "DELETE" "/v2/specs/7" "null" none 204).bodyRead = false ∧
      (doRaw (constEnv (plainResponse 204 "")) noDestination sampleClient
        "DELETE" "/v2/specs/7" "null" none 200).err
        = (doRaw (constEnv ⟨500, ⟨"boom", some "connection reset"⟩, []⟩) noDestination
            sampleClient "DELETE" "/v2/specs/7" "null" none 204).err :=
  have h := doRaw_nil_destination (constEnv ⟨500, ⟨"boom", some "connection reset"⟩, []⟩)
    (constEnv (plainResponse 204 "")) noDestination noDestination sampleClient
    "DELETE" "/v2/specs/7" "null" 204 200 rfl (fun _ => rfl)
  ⟨h.1, h.2.2.1, h.2.2.2.2⟩

/-- C7: a call of `doRaw` with a destination, whose body read succeeds and whose response
status is the expected one and not 404, decodes the buffered body into the destination.
When the decoder reports no error the call returns the response and the nil error, and the
destination is the decoded value. When the decoder reports `cause`, the call returns a
fresh error whose message carries `cause.Error()` and the raw body; that error is not
`ErrNotFound` and its message is not that of an unexpected-status error. -/
theorem doRaw_expected_status_decodes {δ : Type} (env : Env) (dec : Unmarshal δ)
    (c : Chainlink) (method endpoint body : String) (d : δ) (expectedStatusCode : Int)
    (req : Http.Request) (resp : Http.Response)
    (hreq : doRawRequest env c method endpoint body = .ok req)
    (hdo : env.clientDo req = .ok resp)
    (hread : resp.Body.readErr = none)
    (hstatus : resp.StatusCode = expectedStatusCode)
    (h404 : resp.StatusCode ≠ 404) :
    match dec resp.Body.data d with
    | (d', none) =>
      doRaw env dec c method endpoint body (some d) expectedStatusCode
        = ⟨some resp, none, some d', true⟩
    | (d', some cause) =>
      doRaw env dec c method endpoint body (some d) expectedStatusCode
          = ⟨none, some (.Errorf (unmarshalErrorMsg cause c.Config.URL resp.Body.data)),
              some d', true⟩ ∧
        Carries (unmarshalErrorMsg cause c.Config.URL resp.Body.data) cause.Error ∧
        Carries (unmarshalErrorMsg cause c.Config.URL resp.Body.data) resp.Body.data ∧
        GoError.Errorf (unmarshalErrorMsg cause c.Config.URL resp.Body.data)
          ≠ GoError.ErrNotFound ∧
        ∀ status url b,
          unmarshalErrorMsg cause c.Config.URL resp.Body.data
            ≠ unexpectedStatusMsg status url b := by
  subst hstatus
  rcases hd : dec resp.Body.data d with ⟨d', _ | cause⟩
  · simp [doRaw, hreq, hdo, ReadAll, hread, h404, hd]
  · refine ⟨by simp [doRaw, hreq, hdo, ReadAll, hread, h404, hd], ?_, ?_, by simp, ?_⟩
    · exact carries_append_left _ (carries_append_left _ (carries_append_left _
        (carries_append_left _ (carries_append_right _ _))))
    · exact carries_append_right _ _
    · exact fun status url b => unmarshalErrorMsg_ne_unexpectedStatusMsg _ _ _ _ _ _

/-- Witness for C7: status 200 as expected, with an empty body that the decoder rejects. -/
theorem doRaw_expected_status_decodes_witness :
    doRaw (constEnv (plainResponse 200 "")) rawDecoder sampleClient "GET" "/v2/specs/1"
          "null" (some "zero") 200
        = ⟨none, some (.Errorf (unmarshalErrorMsg (.lib "unexpected end of JSON input")
            "http://node:6688" "")), some "zero", true⟩ ∧
      Carries (unmarshalErrorMsg (.lib "unexpected end of JSON input") "http://node:6688" "")
        "unexpected end of JSON input" :=
  have h := doRaw_expected_status_decodes (constEnv (plainResponse 200 "")) rawDecoder
    sampleClient "GET" "/v2/specs/1" "null" "zero" 200
    ⟨"GET", "http://node:6688/v2/specs/1", "null", [⟨"clsession", "abc"⟩]⟩
    (plainResponse 200 "") rfl rfl rfl rfl (by decide)
  ⟨h.1, h.2.1⟩

/-- C8 (counterexample): `GET http://node:6688/v2/bridge_types/b1`, expected status 200,
is answered with status 500 and body `oops`. The returned error is the unexpected-status
error, and its message does not carry the target URL of the request: it names the base URL
only. -/
theorem doRaw_unexpected_status_omits_path :
    doRawRequest (constEnv (plainResponse 500 "oops")) sampleClient "GET"
        "/v2/bridge_types/b1" "null"
        = .ok ⟨"GET", "http://node:6688/v2/bridge_types/b1", "null", [⟨"clsession", "abc"⟩]⟩ ∧
      (doRaw (constEnv (plainResponse 500 "oops")) rawDecoder sampleClient "GET"
        "/v2/bridge_types/b1" "null" (some "") 200).err
        = some (.Errorf
          "unexpected response code, got 500, expected 200\nURL: http://node:6688\nresponse received: oops") ∧
      ¬ Carries
        "unexpected response code, got 500, expected 200\nURL: http://node:6688\nresponse received: oops"
        "http://node:6688/v2/bridge_types/b1" := by
  refine ⟨rfl, by decide, ?_⟩
  intro h
  have hmem : '_' ∈ "http://node:6688/v2/bridge_types/b1".data := by decide
  exact absurd (List.IsInfix.subset h hmem) (by decide)

/-- C8 (amended): a call of `doRaw` with a destination, whose body read succeeds and whose
response status is neither 404 nor the expected one, returns the response together with a
fresh unexpected-status error; the error is not `ErrNotFound`, its message is not that of a
decode error, and the message carries the observed status code, the base URL `c.Config.URL`
of the client (without the path of the request) and the raw body. The destination is left
as it was. -/
theorem doRaw_unexpected_status {δ : Type} (env : Env) (dec : Unmarshal δ)
    (c : Chainlink) (method endpoint body : String) (d : δ) (expectedStatusCode : Int)
    (req : Http.Request) (resp : Http.Response)
    (hreq : doRawRequest env c method endpoint body = .ok req)
    (hdo : env.clientDo req = .ok resp)
    (hread : resp.Body.readErr = none)
    (hstatus : resp.StatusCode ≠ expectedStatusCode)
    (h404 : resp.StatusCode ≠ 404) :
    doRaw env dec c method endpoint body (some d) expectedStatusCode
        = ⟨some resp,
            some (.Errorf (unexpectedStatusMsg resp.StatusCode c.Config.URL resp.Body.data)),
            some d, true⟩ ∧
      GoError.Errorf (unexpectedStatusMsg resp.StatusCode c.Config.URL resp.Body.data)
        ≠ GoError.ErrNotFound ∧
      (∀ cause url b,
        unexpectedStatusMsg resp.StatusCode c.Config.URL resp.Body.data
          ≠ unmarshalErrorMsg cause url b) ∧
      Carries (unexpectedStatusMsg resp.StatusCode c.Config.URL resp.Body.data)
        (toString resp.StatusCode) ∧
      Carries (unexpectedStatusMsg resp.StatusCode c.Config.URL resp.Body.data)
        c.Config.URL ∧
      Carries (unexpectedStatusMsg resp.StatusCode c.Config.URL resp.Body.data)
        resp.Body.data := by
  refine ⟨by simp [doRaw, hreq, hdo, ReadAll, hread, h404, hstatus], by simp, ?_, ?_, ?_, ?_⟩
  · exact fun cause url b h =>
      unmarshalErrorMsg_ne_unexpectedStatusMsg cause url b _ _ _ h.symm
  · exact carries_append_left _ (carries_append_left _ (carries_append_left _
      (carries_append_left _ (carries_append_right _ _))))
  · exact carries_append_left _ (carries_append_left _ (carries_append_right _ _))
  · exact carries_append_right _ _

/-- Witness for C8 (amended): status 500 where 200 is expected. -/
theorem doRaw_unexpected_status_witness :
    doRaw (constEnv (plainResponse 500 "oops")) rawDecoder sampleClient "GET"
          "/v2/bridge_types/b1" "null" (some "") 200
        = ⟨some (plainResponse 500 "oops"),
            some (.Errorf (unexpectedStatusMsg 500 "http://node:6688" "oops")),
            some "", true⟩ ∧
      Carries (unexpectedStatusMsg 500 "http://node:6688" "oops") "http://node:6688" :=
  have h := doRaw_unexpected_status (constEnv (plainResponse 500 "oops")) rawDecoder
    sampleClient "GET" "/v2/bridge_types/b1" "null" "" 200
    ⟨"GET", "http://node:6688/v2/bridge_types/b1", "null", [⟨"clsession", "abc"⟩]⟩
    (plainResponse 500 "oops") rfl rfl rfl (by decide) (by decide)
  ⟨h.1, h.2.2.2.2.1⟩

/-- C9: when `GET {URL}/v2/user/balances` is answered with status 200 and a body that
decodes without error into an array envelope `ra`, the call of `do` returns the nil error
and leaves `ra` in the destination, whatever the length of `ra.Data`, zero included;
`ReadWallet` returns the empty string with the no-wallets error exactly when `ra.Data` has
no element, and otherwise the rendering of the field `id` of the first element with the nil
error. -/
theorem ReadWallet_status200 {V : Type} (env : Env)
    (dec : Unmarshal (Option (ResponseArray V))) (render : V → String) (c : Chainlink)
    (req : Http.Request) (resp : Http.Response) (ra : ResponseArray V)
    (hreq : doRawRequest env c "GET" "/v2/user/balances" "null" = .ok req)
    (hdo : env.clientDo req = .ok resp)
    (hread : resp.Body.readErr = none)
    (hstatus : resp.StatusCode = 200)
    (hdec : dec resp.Body.data (some ⟨[]⟩) = (some ra, none)) :
    (do_ env noPayload dec c "GET" "/v2/user/balances" none (some (some ⟨[]⟩)) 200).err
        = none ∧
      (do_ env noPayload dec c "GET" "/v2/user/balances" none (some (some ⟨[]⟩)) 200).obj
        = some (some ra) ∧
      (ReadWallet env dec render c = some ("", some errNoWallets) ↔ ra.Data.length = 0) ∧
      ReadWallet env dec render c
        = some (match ra.Data with
          | [] => ("", some errNoWallets)
          | first :: _ => (Sprint render (first.index "id"), none)) := by
  have hcall : do_ env noPayload dec c "GET" "/v2/user/balances" none (some (some ⟨[]⟩)) 200
      = ⟨some resp, none, some (some ra), true⟩ := by
    simp [do_, jsonMarshal, doRaw, hreq, hdo, ReadAll, hread, hstatus, hdec]
  have hwallet : ReadWallet env dec render c
      = some (match ra.Data with
        | [] => ("", some errNoWallets)
        | first :: _ => (Sprint render (first.index "id"), none)) := by
    unfold ReadWallet
    rw [hcall]
    rcases ra with ⟨_ | ⟨first, rest⟩⟩ <;> simp
  refine ⟨by rw [hcall], by rw [hcall], ?_, hwallet⟩
  rw [hwallet]
  rcases ra with ⟨_ | ⟨first, rest⟩⟩ <;> simp

/-- Witness for C9: a balance envelope holding one wallet whose `id` is `0x01`. -/
theorem ReadWallet_status200_witness :
    (do_ (constEnv (plainResponse 200 "balances")) noPayload
        (walletDecoder [[("id", some "0x01")]]) sampleClient "GET" "/v2/user/balances" none
        (some (some ⟨[]⟩)) 200).err = none ∧
      ReadWallet (constEnv (plainResponse 200 "balances"))
        (walletDecoder [[("id", some "0x01")]]) id sampleClient = some ("0x01", none) :=
  have h := ReadWallet_status200 (constEnv (plainResponse 200 "balances"))
    (walletDecoder [[("id", some "0x01")]]) id sampleClient
    ⟨"GET", "http://node:6688/v2/user/balances", "null", [⟨"clsession", "abc"⟩]⟩
    (plainResponse 200 "balances") ⟨[[("id", some "0x01")]]⟩ rfl rfl rfl rfl rfl
  ⟨h.1, h.2.2.2⟩

/-- C10: a call of `do` with the nil payload is the call of `doRaw` on the four bytes
`null`, which is not the empty body, so the request it builds has `null` as body; this is
the call made by `CreateOCRKey`. For any payload, `do` either is the call of `doRaw` on the
bytes produced by `json.Marshal`, or returns the serialization error with no response, the
destination untouched and no request made, and then the payload is not nil and its
serialization failed. -/
theorem do_nil_payload_sends_null {π δ : Type} (env : Env)
    (enc : π → Except GoError String) (dec : Unmarshal δ) (c : Chainlink)
    (method endpoint : String) (body : Option π) (obj : Option δ) (zero : δ)
    (expectedStatusCode : Int) :
    do_ env enc dec c method endpoint none obj expectedStatusCode
        = doRaw env dec c method endpoint "null" obj expectedStatusCode ∧
      "null".utf8ByteSize = 4 ∧ "null" ≠ "" ∧
      (match doRawRequest env c method endpoint "null" with
        | .ok req => req.Body = "null"
        | .error _ => True) ∧
      CreateOCRKey env dec zero c
        = ((doRaw env dec c "POST" "/v2/off_chain_reporting_keys" "null" (some zero)
              200).obj.getD zero,
            (doRaw env dec c "POST" "/v2/off_chain_reporting_keys" "null" (some zero)
              200).err) ∧
      ((∃ p err, body = some p ∧ enc p = .error err ∧
          do_ env enc dec c method endpoint body obj expectedStatusCode
            = ⟨none, some err, obj, false⟩) ∨
        (∃ b, jsonMarshal enc body = .ok b ∧
          do_ env enc dec c method endpoint body obj expectedStatusCode
            = doRaw env dec c method endpoint b obj expectedStatusCode)) := by
  refine ⟨by simp [do_, jsonMarshal], by decide, by decide, ?_, ?_, ?_⟩
  · cases h : doRawRequest env c method endpoint "null" with
    | error e => trivial
    | ok req =>
      have := doRawRequest_ok h
      subst this
      rfl
  · simp [CreateOCRKey, do_, jsonMarshal]
  · cases body with
    | none => exact Or.inr ⟨"null", rfl, by simp [do_, jsonMarshal]⟩
    | some p =>
      cases hp : enc p with
      | error err => exact Or.inl ⟨p, err, rfl, hp, by simp [do_, jsonMarshal, hp]⟩
      | ok b => exact Or.inr ⟨b, by simp [jsonMarshal, hp], by simp [do_, jsonMarshal, hp]⟩

end Client
